import Mathlib

/-
Verification development for the rukiya chat-monitor core.

A shallow embedding of the message pipeline implemented in
services/chat_monitor.py (class ChatMonitor) and services/ai_service.py
(class AIService).  Strings are modelled as lists of characters with
Python str.lower approximated by Char.toLower; wall-clock and monotonic
timestamps are integers supplied explicitly; network and responder
outcomes are supplied as oracles, so every function is executable.
-/

namespace RukiyaSpec

/-- Python strings, modelled as character lists. -/
abbrev Str := List Char

/-- Python str.lower (ASCII case folding, as Char.toLower provides). -/
def lowerStr (s : Str) : Str := s.map Char.toLower

/-- Does the pattern occur at the very start of the string? -/
def startsWith : Str → Str → Bool
  | [], _ => true
  | _ :: _, [] => false
  | a :: as, b :: bs => if a = b then startsWith as bs else false

/-- Python substring membership `pat in hay`: pat occurs contiguously in hay. -/
def containsSeq (pat : Str) : Str → Bool
  | [] => startsWith pat []
  | c :: rest => startsWith pat (c :: rest) || containsSeq pat rest

/-- Truthiness of an Optional[str] in Python: None and "" are falsy. -/
def optStrTruthy : Option Str → Bool
  | none => false
  | some s => !s.isEmpty

/-- Python slice l[:n] for an int n (negative n counts from the end). -/
def pySliceTo (n : ℤ) (l : Str) : Str :=
  if 0 ≤ n then l.take n.toNat else l.take (l.length - n.natAbs)

/-- BotConfig from services/ai_service.py. -/
structure BotConfig where
  ai_cooldown : ℤ
  max_message_length : ℤ
  bot_users : List Str
  banned_words : List Str
  ai_triggers : List Str

/-- Mutable state of AIService: the cooldown stamp last_used plus whether
OPENROUTER_API_KEY was present (openrouter_key truthy). -/
structure AIState where
  config : BotConfig
  last_used : ℤ
  hasKey : Bool

/-- AIService.can_respond: time.time() - last_used > ai_cooldown. -/
def can_respond (ai : AIState) (now : ℤ) : Bool :=
  decide (now - ai.last_used > ai.config.ai_cooldown)

/-- AIService.should_respond: the response gate. -/
def should_respond (ai : AIState) (now : ℤ) (message author : Str) : Bool :=
  if ai.hasKey = false then false
  else if can_respond ai now = false then false
  else
    let author_lower := lowerStr author
    if ai.config.bot_users.any (fun u => decide (author_lower = lowerStr u)) then false
    else
      let msg := lowerStr message
      if ai.config.banned_words.any (fun w => containsSeq w msg) then false
      else ai.config.ai_triggers.any (fun t => containsSeq t msg)

/-- Outcome of AIService._call_openrouter together with the exception
behaviour of generate_response: `ok raw` is a returned string, `noText`
is the None result (timeout, rate limiting, unusable payload), `raised`
is a thrown exception (caught by generate_response's try/except). -/
inductive ROut where
  | ok (raw : Str)
  | noText
  | raised
deriving DecidableEq

/-- The truncation step of AIService.generate_response:
raw[: max_len - 3] + "..." when len(raw) > max_len. -/
def truncateResponse (maxLen : ℤ) (raw : Str) : Str :=
  if (raw.length : ℤ) > maxLen then pySliceTo (maxLen - 3) raw ++ ("...".toList)
  else raw

/-- AIService.generate_response.  `now` is the time.time() read by
can_respond, `nowSet` the time.time() written to last_used on success.
Returns the optional reply together with the new AIState. -/
def generate_response (ai : AIState) (out : ROut) (now nowSet : ℤ)
    (message author : Str) : Option Str × AIState :=
  if should_respond ai now message author then
    match out with
    | ROut.ok raw =>
      if raw.isEmpty then (none, ai)
      else
        let ai' := { ai with last_used := nowSet }
        (some (truncateResponse ai.config.max_message_length raw), ai')
    | ROut.noText => (none, ai)
    | ROut.raised => (none, ai)
  else (none, ai)

/-- A subscriber callback: a stable identity plus whether the call raises
for a given (message, author) pair. -/
structure Subscriber where
  sid : ℕ
  fails : Str → Str → Bool

/-- One subscriber call observed by ChatMonitor._notify_subscribers:
either the callback completed or it raised (and was caught and logged). -/
inductive Invocation where
  | completed (sid : ℕ)
  | raised (sid : ℕ)
deriving DecidableEq

/-- ChatMonitor._notify_subscribers: every callback is awaited in order;
an exception is caught inside the loop, so later callbacks still run. -/
def notify_subscribers : List Subscriber → Str → Str → List Invocation
  | [], _, _ => []
  | s :: rest, m, a =>
    (if s.fails m a then Invocation.raised s.sid else Invocation.completed s.sid)
      :: notify_subscribers rest m a

/-- The configuration fields ChatMonitor reads in __init__ (already
normalised: idle_chat_messages is stripped and filtered). -/
structure MonConfig where
  poll_interval : ℤ
  send_cooldown : ℤ
  idle_chat_enabled : Bool
  idle_chat_interval : ℤ
  idle_chat_messages : List Str

/-- Mutable state of ChatMonitor. -/
structure MonState where
  is_running : Bool
  live_chat_id : Option Str
  video_id : Option Str
  next_page_token : Option Str
  processed_messages : List Str
  subscribers : List Subscriber
  last_activity_at : ℤ
  last_idle_message_at : ℤ

/-- ChatMonitor.stop_monitoring (state effect; task cancellation is not
part of the modelled state). -/
def stop_monitoring (mon : MonState) : MonState :=
  { mon with
    is_running := false
    live_chat_id := none
    video_id := none
    next_page_token := none
    processed_messages := [] }

/-- ChatMonitor.send_chat_message.  `netResult` is the (truthy) outcome of
youtube.send_message — false also covers a thrown exception, which is
caught and yields False with no state change; `nowSend` is the
time.monotonic() stored into _last_activity_at on success.  Returns
(result, new state, whether the network send was invoked). -/
def send_chat_message (mon : MonState) (text : Str) (netResult : Bool)
    (nowSend : ℤ) : Bool × MonState × Bool :=
  if text.isEmpty then (false, mon, false)
  else if optStrTruthy mon.live_chat_id = false then (false, mon, false)
  else if netResult then (true, { mon with last_activity_at := nowSend }, true)
  else (false, mon, true)

/-- The attempt loop of ChatMonitor.send_chat_message_with_retry: `fuel`
is the remaining attempt budget, `i` the index of the next attempt into
the outcome oracles.  Returns (result, new state, attempts made). -/
def retrySendAux (text : Str) (net : ℕ → Bool) (times : ℕ → ℤ) :
    MonState → ℕ → ℕ → Bool × MonState × ℕ
  | mon, _, 0 => (false, mon, 0)
  | mon, i, r + 1 =>
    let s := send_chat_message mon text (net i) (times i)
    if s.1 then (true, s.2.1, 1)
    else
      let rest := retrySendAux text net times s.2.1 (i + 1) r
      (rest.1, rest.2.1, rest.2.2 + 1)

/-- ChatMonitor.send_chat_message_with_retry: max_attempts = 1 + max(0, retries). -/
def send_chat_message_with_retry (mon : MonState) (text : Str) (retries : ℤ)
    (net : ℕ → Bool) (times : ℕ → ℤ) : Bool × MonState × ℕ :=
  retrySendAux text net times mon 0 (1 + (max 0 retries).toNat)

/-- One inbound item of the fetch response: item["id"],
snippet["authorDisplayName"], snippet["displayMessage"], each possibly
missing. -/
structure FetchItem where
  id : Option Str
  author : Option Str
  text : Option Str

/-- snippet.get("authorDisplayName", "Unknown"). -/
def itemAuthor (it : FetchItem) : Str := it.author.getD ("Unknown".toList)

/-- snippet.get("displayMessage", ""). -/
def itemText (it : FetchItem) : Str := it.text.getD []

/-- The environment one loop iteration of ChatMonitor.process_messages
consumes for a single item: the responder outcome with its two
time.time() reads, the time.monotonic() stored on arrival, and the
outcome/time oracles for the retried send. -/
structure ItemEvents where
  aiEv : ROut
  aiNow : ℤ
  aiNowSet : ℤ
  itemNow : ℤ
  net : ℕ → Bool
  netTimes : ℕ → ℤ

/-- Observables of one iteration of the process_messages item loop. -/
structure ItemTrace where
  skipped : Bool
  invocations : List Invocation
  gateConsulted : Bool
  aiResponse : Option Str
  sendAttempts : ℕ
  sendSucceeded : Bool

/-- The trace of an item dropped by the dedup/validity guard. -/
def skippedTrace : ItemTrace :=
  { skipped := true, invocations := [], gateConsulted := false,
    aiResponse := none, sendAttempts := 0, sendSucceeded := false }

/-- The guard `not message or not message_id or message_id in
self.processed_messages` of the item loop. -/
def itemSkipped (mon : MonState) (it : FetchItem) : Bool :=
  if (itemText it).isEmpty then true
  else match it.id with
    | none => true
    | some mid => if mid.isEmpty then true else decide (mid ∈ mon.processed_messages)

/-- The body of the per-item loop of ChatMonitor.process_messages: dedup
guard, mark seen, stamp activity, notify subscribers, consult the
responder (exceptions caught), and send the reply with retries=1. -/
def processItem (mon : MonState) (ai : AIState) (it : FetchItem)
    (ev : ItemEvents) : MonState × AIState × ItemTrace :=
  let message := itemText it
  let author := itemAuthor it
  if itemSkipped mon it then (mon, ai, skippedTrace)
  else
    match it.id with
    | none => (mon, ai, skippedTrace)
    | some mid =>
      let mon1 := { mon with
        processed_messages := mid :: mon.processed_messages
        last_activity_at := ev.itemNow }
      let invs := notify_subscribers mon1.subscribers message author
      let g := generate_response ai ev.aiEv ev.aiNow ev.aiNowSet message author
      match g.1 with
      | some r =>
        if r.isEmpty then
          (mon1, g.2,
            { skipped := false, invocations := invs, gateConsulted := true,
              aiResponse := some r, sendAttempts := 0, sendSucceeded := false })
        else
          let s := send_chat_message_with_retry mon1 r 1 ev.net ev.netTimes
          (s.2.1, g.2,
            { skipped := false, invocations := invs, gateConsulted := true,
              aiResponse := some r, sendAttempts := s.2.2, sendSucceeded := s.1 })
      | none =>
        (mon1, g.2,
          { skipped := false, invocations := invs, gateConsulted := true,
            aiResponse := none, sendAttempts := 0, sendSucceeded := false })

/-- The whole item loop of process_messages over one fetched batch. -/
def processItems : MonState → AIState → List (FetchItem × ItemEvents) →
    MonState × AIState × List (FetchItem × ItemTrace)
  | mon, ai, [] => (mon, ai, [])
  | mon, ai, (it, ev) :: rest =>
    let r := processItem mon ai it ev
    let rs := processItems r.1 r.2.1 rest
    (rs.1, rs.2.1, (it, r.2.2) :: rs.2.2)

/-- How many items of a batch trace carried the given id and were fully
processed (notified and gate-consulted rather than skipped). -/
def procCount (traces : List (FetchItem × ItemTrace)) (i : Str) : ℕ :=
  (traces.filter (fun e => decide (e.1.id = some i) && !e.2.skipped)).length

/-- ChatMonitor._maybe_send_idle_message.  `now` is the time.monotonic()
read for the guards, `choice` selects the random filler, `netResult` and
`nowSend` feed the inner send_chat_message, `now2` is the
time.monotonic() stored into _last_idle_message_at on success.  Returns
(new state, a send was attempted, the send succeeded). -/
def maybe_send_idle_message (cfg : MonConfig) (mon : MonState) (now : ℤ)
    (choice : ℕ) (netResult : Bool) (nowSend now2 : ℤ) :
    MonState × Bool × Bool :=
  if cfg.idle_chat_enabled = false then (mon, false, false)
  else if cfg.idle_chat_messages.isEmpty then (mon, false, false)
  else if optStrTruthy mon.live_chat_id = false ∨ mon.is_running = false then
    (mon, false, false)
  else if now - mon.last_activity_at < cfg.idle_chat_interval then
    (mon, false, false)
  else if mon.last_idle_message_at ≠ 0 ∧
      now - mon.last_idle_message_at < cfg.idle_chat_interval then
    (mon, false, false)
  else
    let idle_text :=
      cfg.idle_chat_messages.getD (choice % cfg.idle_chat_messages.length) []
    let s := send_chat_message mon idle_text netResult nowSend
    if s.1 then ({ s.2.1 with last_idle_message_at := now2 }, true, true)
    else (s.2.1, true, false)

/-- A permissive bot configuration used for concrete evaluations. -/
def cfgB : BotConfig :=
  { ai_cooldown := 5, max_message_length := 200, bot_users := [],
    banned_words := [], ai_triggers := ["yo".toList] }

/-- An AI state whose gate permits at time 100. -/
def aiC : AIState := { config := cfgB, last_used := 0, hasKey := true }

/-- A bot configuration with a muted author entry. -/
def cfgMut : BotConfig :=
  { ai_cooldown := 5, max_message_length := 200, bot_users := ["x".toList],
    banned_words := [], ai_triggers := ["yo".toList] }

/-- An AI state whose gate mutes author x (case-insensitively). -/
def aiMut : AIState := { config := cfgMut, last_used := 0, hasKey := true }

/-- A bot configuration with a short length limit. -/
def cfgShort : BotConfig :=
  { ai_cooldown := 5, max_message_length := 5, bot_users := [],
    banned_words := [], ai_triggers := ["yo".toList] }

/-- An AI state with max_message_length 5. -/
def aiShort : AIState := { config := cfgShort, last_used := 0, hasKey := true }

/-- A running monitor watching chat c with no subscribers. -/
def monC : MonState :=
  { is_running := true, live_chat_id := some ("c".toList), video_id := none,
    next_page_token := none, processed_messages := [], subscribers := [],
    last_activity_at := 0, last_idle_message_at := 0 }

/-- A concrete inbound item with id m1 and trigger-matching text. -/
def itC : FetchItem :=
  { id := some ("m1".toList), author := some ("X".toList),
    text := some ("yo".toList) }

/-- Events where the responder returns hi but every outbound send fails. -/
def evFail : ItemEvents :=
  { aiEv := ROut.ok ("hi".toList), aiNow := 100, aiNowSet := 100,
    itemNow := 1, net := fun _ => false, netTimes := fun _ => 0 }

/-- Events where the responder produces no text. -/
def evNone : ItemEvents :=
  { aiEv := ROut.noText, aiNow := 100, aiNowSet := 100,
    itemNow := 1, net := fun _ => false, netTimes := fun _ => 0 }

/-- A subscriber that always raises. -/
def subA : Subscriber := { sid := 0, fails := fun _ _ => true }

/-- A subscriber that never raises. -/
def subB : Subscriber := { sid := 1, fails := fun _ _ => false }

/-- The monitor monC with subscribers [subA, subB]. -/
def monAB : MonState := { monC with subscribers := [subA, subB] }

/-- An inbound item with no id at all. -/
def itBad : FetchItem :=
  { id := none, author := none, text := some ("yo".toList) }

/-- An idle-filler configuration with a 10-second interval. -/
def cfgIdle : MonConfig :=
  { poll_interval := 2, send_cooldown := 2, idle_chat_enabled := true,
    idle_chat_interval := 10, idle_chat_messages := ["hi".toList] }

/-- startsWith decides the existence of a completing suffix. -/
theorem startsWith_iff (p s : Str) : startsWith p s = true ↔ ∃ r, s = p ++ r := by
  induction p generalizing s with
  | nil =>
    simp [startsWith]
  | cons a as ih =>
    cases s with
    | nil =>
      simp [startsWith]
    | cons b bs =>
      simp only [startsWith]
      by_cases hab : a = b
      · subst hab
        rw [if_pos rfl, ih]
        constructor
        · rintro ⟨r, hr⟩
          exact ⟨r, by rw [hr]; rfl⟩
        · rintro ⟨r, hr⟩
          simp only [List.cons_append, List.cons.injEq, true_and] at hr
          exact ⟨r, hr⟩
      · rw [if_neg hab]
        refine iff_of_false (by simp) ?_
        rintro ⟨r, hr⟩
        simp only [List.cons_append, List.cons.injEq] at hr
        exact hab hr.1.symm

/-- containsSeq decides contiguous-substring occurrence. -/
theorem containsSeq_iff (pat hay : Str) :
    containsSeq pat hay = true ↔ ∃ l r, hay = l ++ pat ++ r := by
  induction hay with
  | nil =>
    simp only [containsSeq, startsWith_iff]
    constructor
    · rintro ⟨r, hr⟩; exact ⟨[], r, by simpa using hr⟩
    · rintro ⟨l, r, hr⟩
      refine ⟨r, ?_⟩
      have hl : l = [] := by
        cases l with
        | nil => rfl
        | cons x xs => simp at hr
      subst hl
      simpa using hr
  | cons c rest ih =>
    simp only [containsSeq, Bool.or_eq_true, startsWith_iff, ih]
    constructor
    · rintro (⟨r, hr⟩ | ⟨l, r, hr⟩)
      · exact ⟨[], r, by simpa using hr⟩
      · exact ⟨c :: l, r, by simp [hr]⟩
    · rintro ⟨l, r, hr⟩
      cases l with
      | nil => exact Or.inl ⟨r, by simpa using hr⟩
      | cons x xs =>
        simp only [List.cons_append, List.cons.injEq] at hr
        exact Or.inr ⟨xs, r, hr.2⟩

/-- A failed send leaves the monitor state unchanged. -/
theorem send_chat_message_fail (mon : MonState) (text : Str) (b : Bool) (t : ℤ)
    (h : (send_chat_message mon text b t).1 = false) :
    (send_chat_message mon text b t).2.1 = mon := by
  unfold send_chat_message at h ⊢
  by_cases h1 : text.isEmpty
  · simp [h1]
  · by_cases h2 : optStrTruthy mon.live_chat_id = false
    · simp [h1, h2]
    · cases b
      · simp [h1, h2]
      · simp [h1, h2] at h

/-- send_chat_message touches no field except last_activity_at. -/
theorem send_chat_message_frame (mon : MonState) (text : Str) (b : Bool) (t : ℤ) :
    (send_chat_message mon text b t).2.1.processed_messages = mon.processed_messages ∧
    (send_chat_message mon text b t).2.1.last_idle_message_at = mon.last_idle_message_at ∧
    (send_chat_message mon text b t).2.1.live_chat_id = mon.live_chat_id ∧
    (send_chat_message mon text b t).2.1.subscribers = mon.subscribers := by
  unfold send_chat_message
  by_cases h1 : text.isEmpty
  · simp [h1]
  · by_cases h2 : optStrTruthy mon.live_chat_id = false
    · simp [h1, h2]
    · cases b <;> simp [h1, h2]

/-- retrySendAux when every attempt in the budget fails: the state is
unchanged and every unit of fuel is consumed as one attempt. -/
theorem retryAux_all_fail (text : Str) (net : ℕ → Bool) (times : ℕ → ℤ)
    (mon : MonState) :
    ∀ r i, (∀ j, j < r → (send_chat_message mon text (net (i + j)) (times (i + j))).1 = false) →
    retrySendAux text net times mon i r = (false, mon, r) := by
  intro r
  induction r with
  | zero => intro i _; rfl
  | succ r ih =>
    intro i h
    have h0 : (send_chat_message mon text (net i) (times i)).1 = false := by
      have := h 0 (Nat.succ_pos r)
      simpa using this
    have hstate := send_chat_message_fail mon text (net i) (times i) h0
    have hrest : retrySendAux text net times
        ((send_chat_message mon text (net i) (times i)).2.1) (i + 1) r = (false, mon, r) := by
      rw [hstate]
      refine ih (i + 1) ?_
      intro j hj
      have := h (j + 1) (Nat.succ_lt_succ hj)
      have harr : i + (j + 1) = i + 1 + j := by omega
      rwa [harr] at this
    simp only [retrySendAux, h0, Bool.false_eq_true, if_false, hrest]

/-- retrySendAux when the first success is at offset k within the budget:
it returns true after exactly k + 1 attempts, ending in the post-send state. -/
theorem retryAux_first_success (text : Str) (net : ℕ → Bool) (times : ℕ → ℤ)
    (mon : MonState) :
    ∀ r i k, k < r →
    (∀ j, j < k → (send_chat_message mon text (net (i + j)) (times (i + j))).1 = false) →
    (send_chat_message mon text (net (i + k)) (times (i + k))).1 = true →
    retrySendAux text net times mon i r =
      (true, (send_chat_message mon text (net (i + k)) (times (i + k))).2.1, k + 1) := by
  intro r
  induction r with
  | zero => intro i k hk; omega
  | succ r ih =>
    intro i k hk hfail hsucc
    cases k with
    | zero =>
      have h0 : (send_chat_message mon text (net i) (times i)).1 = true := by
        simpa using hsucc
      simp only [retrySendAux, h0, if_true]
      simp
    | succ k =>
      have h0 : (send_chat_message mon text (net i) (times i)).1 = false := by
        have := hfail 0 (Nat.succ_pos k)
        simpa using this
      have hstate := send_chat_message_fail mon text (net i) (times i) h0
      have harr : ∀ j : ℕ, i + (j + 1) = i + 1 + j := by intro j; omega
      have hrest : retrySendAux text net times
          ((send_chat_message mon text (net i) (times i)).2.1) (i + 1) r =
          (true, (send_chat_message mon text (net (i + (k + 1))) (times (i + (k + 1)))).2.1, k + 1) := by
        rw [hstate]
        have := ih (i + 1) k (by omega)
          (fun j hj => by have := hfail (j + 1) (Nat.succ_lt_succ hj); rwa [harr j] at this)
          (by rw [← harr k]; exact hsucc)
        rw [harr k]
        exact this
      simp only [retrySendAux, h0, Bool.false_eq_true, if_false, hrest]

/-- Claim C3: for every text and non-negative retries,
send_chat_message_with_retry invokes the plain send at most 1 + retries
times; it returns true exactly when the first successful attempt occurs,
having made no further attempts after it; it returns false only after all
1 + retries attempts fail. -/
theorem c3_retry_spec (mon : MonState) (text : Str) (retries : ℤ)
    (net : ℕ → Bool) (times : ℕ → ℤ) (hr : 0 ≤ retries) :
    (send_chat_message_with_retry mon text retries net times).2.2 ≤ 1 + retries.toNat ∧
    ((send_chat_message_with_retry mon text retries net times).1 = false →
      (send_chat_message_with_retry mon text retries net times).2.2 = 1 + retries.toNat ∧
      ∀ i, i < 1 + retries.toNat →
        (send_chat_message mon text (net i) (times i)).1 = false) ∧
    ((send_chat_message_with_retry mon text retries net times).1 = true →
      (send_chat_message mon text
        (net ((send_chat_message_with_retry mon text retries net times).2.2 - 1))
        (times ((send_chat_message_with_retry mon text retries net times).2.2 - 1))).1 = true ∧
      ∀ i, i < (send_chat_message_with_retry mon text retries net times).2.2 - 1 →
        (send_chat_message mon text (net i) (times i)).1 = false) := by
  classical
  have hmax : (max 0 retries).toNat = retries.toNat := by rw [max_eq_right hr]
  unfold send_chat_message_with_retry
  rw [hmax]
  by_cases hex : ∃ n, (send_chat_message mon text (net n) (times n)).1 = true ∧
      n < 1 + retries.toNat
  · obtain ⟨k, hsk, hk⟩ := hex
    have hP : ∃ n, (send_chat_message mon text (net n) (times n)).1 = true := ⟨k, hsk⟩
    have hk0P := Nat.find_spec hP
    have hk0le : Nat.find hP ≤ k := Nat.find_min' hP hsk
    have hk0lt : Nat.find hP < 1 + retries.toNat := lt_of_le_of_lt hk0le hk
    have hrun := retryAux_first_success text net times mon (1 + retries.toNat) 0
      (Nat.find hP) hk0lt
      (fun j hj => by
        have hnj := Nat.find_min hP hj
        simpa using Bool.eq_false_iff.mpr hnj)
      (by simpa using hk0P)
    rw [hrun]
    refine ⟨by simp only []; omega, ?_, ?_⟩
    · intro hfalse
      simp at hfalse
    · intro _
      constructor
      · simpa using hk0P
      · intro i hi
        have : i < Nat.find hP := by simpa using hi
        exact Bool.eq_false_iff.mpr (Nat.find_min hP this)
  · push_neg at hex
    have hall : ∀ j, j < 1 + retries.toNat →
        (send_chat_message mon text (net j) (times j)).1 = false := by
      intro j hj
      cases hb : (send_chat_message mon text (net j) (times j)).1 with
      | false => rfl
      | true => exact absurd hj (not_lt.mpr (hex j hb))
    have hrun := retryAux_all_fail text net times mon (1 + retries.toNat) 0
      (fun j hj => by simpa using hall j hj)
    rw [hrun]
    exact ⟨le_refl _, fun _ => ⟨rfl, hall⟩, fun htrue => by simp at htrue⟩

/-- Witness for C3: with retries = 2 and an always-failing send the call
makes exactly 3 attempts and returns false. -/
theorem c3_retry_witness :
    (send_chat_message_with_retry monC ("hi".toList) 2 (fun _ => false) (fun _ => 0)).2.2 = 3 ∧
    (send_chat_message_with_retry monC ("hi".toList) 2 (fun _ => false) (fun _ => 0)).1 = false := by
  have h := c3_retry_spec monC ("hi".toList) 2 (fun _ => false) (fun _ => 0) (by norm_num)
  have hfalse : (send_chat_message_with_retry monC ("hi".toList) 2
      (fun _ => false) (fun _ => 0)).1 = false := by decide
  have hcount := (h.2.1 hfalse).1
  refine ⟨?_, hfalse⟩
  simpa using hcount

/-- Claim C7: stop_monitoring always lands in the stopped state with the
channel handle, cursor and dedup set cleared, and is idempotent. -/
theorem c7_stop_idempotent (mon : MonState) :
    (stop_monitoring mon).is_running = false ∧
    (stop_monitoring mon).live_chat_id = none ∧
    (stop_monitoring mon).next_page_token = none ∧
    (stop_monitoring mon).processed_messages = [] ∧
    stop_monitoring (stop_monitoring mon) = stop_monitoring mon :=
  ⟨rfl, rfl, rfl, rfl, rfl⟩

/-- Claim C8: send_chat_message with empty text or no channel handle
returns false, performs no network call and leaves the state unchanged. -/
theorem c8_send_rejects (mon : MonState) (text : Str) (netResult : Bool)
    (nowSend : ℤ) (h : text = [] ∨ mon.live_chat_id = none) :
    send_chat_message mon text netResult nowSend = (false, mon, false) := by
  rcases h with h | h
  · subst h
    simp [send_chat_message]
  · by_cases ht : text.isEmpty
    · simp [send_chat_message, ht]
    · simp [send_chat_message, ht, h, optStrTruthy]

/-- Witness for C8 at empty text. -/
theorem c8_send_witness :
    send_chat_message monC [] true 0 = (false, monC, false) :=
  c8_send_rejects monC [] true 0 (Or.inl rfl)

/-- retrySendAux never changes processed_messages. -/
theorem retryAux_processed (text : Str) (net : ℕ → Bool) (times : ℕ → ℤ) :
    ∀ fuel i mon,
      (retrySendAux text net times mon i fuel).2.1.processed_messages =
        mon.processed_messages := by
  intro fuel
  induction fuel with
  | zero => intro i mon; rfl
  | succ r ih =>
    intro i mon
    simp only [retrySendAux]
    by_cases hb : (send_chat_message mon text (net i) (times i)).1 = true
    · simp only [hb, if_true]
      exact (send_chat_message_frame mon text (net i) (times i)).1
    · have hb' := Bool.eq_false_iff.mpr hb
      simp only [hb', Bool.false_eq_true, if_false]
      rw [ih]
      exact (send_chat_message_frame mon text (net i) (times i)).1

/-- A skip guard that holds makes the item loop body a no-op. -/
theorem processItem_skip (mon : MonState) (ai : AIState) (it : FetchItem)
    (ev : ItemEvents) (h : itemSkipped mon it = true) :
    processItem mon ai it ev = (mon, ai, skippedTrace) := by
  unfold processItem
  simp [h]

/-- Decomposition of the skip guard when it fails. -/
theorem itemSkipped_false_elim (mon : MonState) (it : FetchItem)
    (h : itemSkipped mon it = false) :
    ∃ mid, it.id = some mid ∧ mid.isEmpty = false ∧
      (itemText it).isEmpty = false ∧ mid ∉ mon.processed_messages := by
  unfold itemSkipped at h
  split at h
  · exact absurd h (by simp)
  · next ht =>
    cases hid : it.id with
    | none => rw [hid] at h; simp at h
    | some mid =>
      rw [hid] at h
      have h2 : (if mid.isEmpty = true then (true : Bool)
          else decide (mid ∈ mon.processed_messages)) = false := h
      by_cases hm : mid.isEmpty = true
      · rw [if_pos hm] at h2
        simp at h2
      · rw [if_neg hm] at h2
        refine ⟨mid, rfl, Bool.eq_false_iff.mpr hm, Bool.eq_false_iff.mpr ht, ?_⟩
        simpa using h2

/-- The skip guard fails for a fresh, well-formed item. -/
theorem itemSkipped_false_of_valid (mon : MonState) (it : FetchItem) (i : Str)
    (hid : it.id = some i) (htext : (itemText it).isEmpty = false)
    (hni : i.isEmpty = false) (hmem : i ∉ mon.processed_messages) :
    itemSkipped mon it = false := by
  unfold itemSkipped
  rw [hid]
  simp [htext, hni, hmem]

/-- The skip guard holds as soon as the id is already in the dedup set. -/
theorem itemSkipped_of_mem (mon : MonState) (it : FetchItem) (i : Str)
    (hid : it.id = some i) (h : i ∈ mon.processed_messages) :
    itemSkipped mon it = true := by
  unfold itemSkipped
  split
  · rfl
  · rw [hid]
    by_cases hm : i.isEmpty
    · simp [hm]
    · simp [hm, h]

/-- Shape of one fully processed item: the id is recorded, all
subscribers are notified, the gate is consulted exactly through
generate_response, and the AI state becomes the post-generation state. -/
theorem processItem_shape (mon : MonState) (ai : AIState) (it : FetchItem)
    (ev : ItemEvents) (h : itemSkipped mon it = false) :
    ∃ mid, it.id = some mid ∧ mid ∉ mon.processed_messages ∧
      (processItem mon ai it ev).1.processed_messages = mid :: mon.processed_messages ∧
      (processItem mon ai it ev).2.1 =
        (generate_response ai ev.aiEv ev.aiNow ev.aiNowSet (itemText it) (itemAuthor it)).2 ∧
      (processItem mon ai it ev).2.2.skipped = false ∧
      (processItem mon ai it ev).2.2.invocations =
        notify_subscribers mon.subscribers (itemText it) (itemAuthor it) ∧
      (processItem mon ai it ev).2.2.gateConsulted = true ∧
      (processItem mon ai it ev).2.2.aiResponse =
        (generate_response ai ev.aiEv ev.aiNow ev.aiNowSet (itemText it) (itemAuthor it)).1 := by
  obtain ⟨mid, hid, _, _, hnm⟩ := itemSkipped_false_elim mon it h
  refine ⟨mid, hid, hnm, ?_⟩
  unfold processItem
  rw [hid]
  simp only [h, Bool.false_eq_true, if_false]
  cases hg : (generate_response ai ev.aiEv ev.aiNow ev.aiNowSet (itemText it) (itemAuthor it)).1 with
  | none =>
    simp only [hg]
    refine ⟨?_, ?_, ?_, ?_, ?_, ?_⟩ <;> trivial
  | some r =>
    simp only [hg]
    by_cases hre : r.isEmpty = true
    · rw [if_pos hre]
      refine ⟨?_, ?_, ?_, ?_, ?_, ?_⟩ <;> trivial
    · rw [if_neg hre]
      refine ⟨?_, ?_, ?_, ?_, ?_, ?_⟩
      · show (send_chat_message_with_retry _ r 1 ev.net ev.netTimes).2.1.processed_messages =
          mid :: mon.processed_messages
        unfold send_chat_message_with_retry
        rw [retryAux_processed]
      all_goals trivial

/-- Membership in the dedup set is preserved by the item loop body. -/
theorem processItem_mem_mono (mon : MonState) (ai : AIState) (it : FetchItem)
    (ev : ItemEvents) (x : Str) (h : x ∈ mon.processed_messages) :
    x ∈ (processItem mon ai it ev).1.processed_messages := by
  by_cases hsk : itemSkipped mon it = true
  · rw [processItem_skip mon ai it ev hsk]
    exact h
  · obtain ⟨mid, _, _, hproc, _⟩ :=
      processItem_shape mon ai it ev (Bool.eq_false_iff.mpr hsk)
    rw [hproc]
    exact List.mem_cons_of_mem _ h

/-- Unfolding procCount over one trace entry. -/
theorem procCount_cons (it : FetchItem) (tr : ItemTrace)
    (rest : List (FetchItem × ItemTrace)) (i : Str) :
    procCount ((it, tr) :: rest) i =
      procCount rest i + (if it.id = some i ∧ tr.skipped = false then 1 else 0) := by
  simp only [procCount, List.filter_cons]
  by_cases h1 : it.id = some i
  · by_cases h2 : tr.skipped = true
    · simp [h1, h2]
    · have h2' : tr.skipped = false := Bool.eq_false_iff.mpr h2
      simp [h1, h2', Nat.add_comm]
  · simp [h1]

/-- An id already in the dedup set is never processed again in a batch. -/
theorem procCount_seen (i : Str) :
    ∀ (batch : List (FetchItem × ItemEvents)) (mon : MonState) (ai : AIState),
      i ∈ mon.processed_messages →
      procCount (processItems mon ai batch).2.2 i = 0 := by
  intro batch
  induction batch with
  | nil => intro mon ai _; rfl
  | cons e rest ih =>
    intro mon ai h
    obtain ⟨it, ev⟩ := e
    simp only [processItems]
    rw [procCount_cons]
    rw [ih _ _ (processItem_mem_mono mon ai it ev i h)]
    by_cases hid : it.id = some i
    · have hsk := itemSkipped_of_mem mon it i hid h
      rw [processItem_skip mon ai it ev hsk]
      simp [skippedTrace]
    · simp [hid]

/-- Claim C2: within one batch, an id absent from the dedup set is fully
processed (one notification cycle and one gate consultation) at most
once, and exactly once when some item carries that id with non-empty
text; later items with the same id are skipped. -/
theorem c2_dedup_single_processing (i : Str) (hne : i.isEmpty = false) :
    ∀ (batch : List (FetchItem × ItemEvents)) (mon : MonState) (ai : AIState),
      i ∉ mon.processed_messages →
      procCount (processItems mon ai batch).2.2 i ≤ 1 ∧
      ((∃ e ∈ batch, (e : FetchItem × ItemEvents).1.id = some i ∧
          (itemText e.1).isEmpty = false) →
        procCount (processItems mon ai batch).2.2 i = 1) := by
  intro batch
  induction batch with
  | nil =>
    intro mon ai _
    exact ⟨by simp [processItems, procCount], by simp⟩
  | cons e rest ih =>
    intro mon ai hi
    obtain ⟨it, ev⟩ := e
    simp only [processItems]
    rw [procCount_cons]
    by_cases hid : it.id = some i
    · by_cases hsk : itemSkipped mon it = true
      · rw [processItem_skip mon ai it ev hsk]
        have hrec := ih mon ai hi
        refine ⟨by simpa [skippedTrace] using hrec.1, ?_⟩
        rintro ⟨e, he, heid, hetext⟩
        rcases List.mem_cons.mp he with he | he
        · exfalso
          have : itemSkipped mon it = false := by
            refine itemSkipped_false_of_valid mon it i hid ?_ hne hi
            rw [he] at hetext
            exact hetext
          rw [this] at hsk
          exact Bool.false_ne_true hsk
        · have := hrec.2 ⟨e, he, heid, hetext⟩
          simpa [skippedTrace] using this
      · have hsk' : itemSkipped mon it = false := Bool.eq_false_iff.mpr hsk
        obtain ⟨mid, hmid, _, hproc, _, hskf, _⟩ := processItem_shape mon ai it ev hsk'
        have hmidi : mid = i := by
          rw [hid] at hmid
          exact (Option.some.injEq _ _ ▸ hmid.symm)
        have hmem : i ∈ (processItem mon ai it ev).1.processed_messages := by
          rw [hproc, hmidi]
          exact List.mem_cons_self _ _
        rw [procCount_seen i rest _ _ hmem]
        simp [hid, hskf]
    · have hni : i ∉ (processItem mon ai it ev).1.processed_messages := by
        by_cases hsk : itemSkipped mon it = true
        · rw [processItem_skip mon ai it ev hsk]
          exact hi
        · obtain ⟨mid, hmid, _, hproc, _⟩ :=
            processItem_shape mon ai it ev (Bool.eq_false_iff.mpr hsk)
          rw [hproc]
          intro hmem
          rcases List.mem_cons.mp hmem with hmem | hmem
          · exact hid (by rw [hmid, hmem])
          · exact hi hmem
      have hrec := ih (processItem mon ai it ev).1 (processItem mon ai it ev).2.1 hni
      refine ⟨by simpa [hid] using hrec.1, ?_⟩
      rintro ⟨e, he, heid, hetext⟩
      rcases List.mem_cons.mp he with he | he
      · exact absurd (by rw [he] at heid; exact heid) hid
      · have := hrec.2 ⟨e, he, heid, hetext⟩
        simpa [hid] using this

/-- Witness for C2: feeding item m1 twice in one batch yields exactly one
full processing of id m1. -/
theorem c2_dedup_witness :
    procCount (processItems monC aiC [(itC, evNone), (itC, evNone)]).2.2
      ("m1".toList) = 1 := by
  have h := c2_dedup_single_processing ("m1".toList) (by decide)
    [(itC, evNone), (itC, evNone)] monC aiC (by decide)
  exact h.2 ⟨(itC, evNone), List.mem_cons_self _ _, by decide, by decide⟩

/-- Claim C9: an item with empty display text or missing id is skipped
entirely — state untouched, nobody notified, gate never consulted — and a
later well-formed delivery of a fresh id is processed. -/
theorem c9_invalid_item_skipped (mon : MonState) (ai : AIState)
    (it it2 : FetchItem) (ev ev2 : ItemEvents) (i : Str)
    (h : itemText it = [] ∨ it.id = none) :
    processItem mon ai it ev = (mon, ai, skippedTrace) ∧
    (it2.id = some i → i.isEmpty = false → i ∉ mon.processed_messages →
      (itemText it2).isEmpty = false →
      (processItem mon ai it2 ev2).2.2.skipped = false) := by
  constructor
  · apply processItem_skip
    unfold itemSkipped
    rcases h with h | h
    · simp [h]
    · by_cases ht : (itemText it).isEmpty = true
      · simp [ht]
      · rw [if_neg ht, h]
  · intro hid hni hmem htext
    have hv := itemSkipped_false_of_valid mon it2 i hid htext hni hmem
    obtain ⟨mid, _, _, _, _, hskf, _⟩ := processItem_shape mon ai it2 ev2 hv
    exact hskf

/-- Witness for C9: the id-less item itBad is dropped without any effect,
and the valid item itC is processed. -/
theorem c9_skip_witness :
    processItem monC aiC itBad evNone = (monC, aiC, skippedTrace) ∧
    (processItem monC aiC itC evNone).2.2.skipped = false := by
  have h := c9_invalid_item_skipped monC aiC itBad itC evNone evNone
    ("m1".toList) (Or.inr rfl)
  exact ⟨h.1, h.2 rfl (by decide) (by decide) (by decide)⟩

/-- Claim C5: with subscribers [A, B] where A raises on the message, the
loop still invokes B (the exception is caught) and the gate is still
consulted for that message. -/
theorem c5_subscriber_isolation (A B : Subscriber) (mon : MonState)
    (ai : AIState) (it : FetchItem) (ev : ItemEvents)
    (hsubs : mon.subscribers = [A, B])
    (hA : A.fails (itemText it) (itemAuthor it) = true)
    (hB : B.fails (itemText it) (itemAuthor it) = false)
    (hns : itemSkipped mon it = false) :
    (processItem mon ai it ev).2.2.invocations =
      [Invocation.raised A.sid, Invocation.completed B.sid] ∧
    (processItem mon ai it ev).2.2.gateConsulted = true := by
  obtain ⟨mid, _, _, _, _, _, hinv, hgate, _⟩ := processItem_shape mon ai it ev hns
  refine ⟨?_, hgate⟩
  rw [hinv, hsubs]
  simp [notify_subscribers, hA, hB]

/-- Witness for C5 with the always-raising subA before subB. -/
theorem c5_subscriber_witness :
    (processItem monAB aiC itC evNone).2.2.invocations =
      [Invocation.raised subA.sid, Invocation.completed subB.sid] ∧
    (processItem monAB aiC itC evNone).2.2.gateConsulted = true :=
  c5_subscriber_isolation subA subB monAB aiC itC evNone rfl rfl rfl (by decide)

/-- generate_response either returns none with the AI state untouched, or
returns a reply and stamps last_used with the success-time read. -/
theorem generate_response_cases (ai : AIState) (out : ROut) (now nowSet : ℤ)
    (m a : Str) :
    ((generate_response ai out now nowSet m a).1 = none ∧
     (generate_response ai out now nowSet m a).2 = ai) ∨
    (∃ r, (generate_response ai out now nowSet m a).1 = some r ∧
      (generate_response ai out now nowSet m a).2.last_used = nowSet) := by
  by_cases hs : should_respond ai now m a = true
  · cases out with
    | ok raw =>
      by_cases hre : raw.isEmpty = true
      · left
        constructor <;> simp [generate_response, hs, hre]
      · right
        refine ⟨truncateResponse ai.config.max_message_length raw, ?_, ?_⟩ <;>
          simp [generate_response, hs, hre]
    | noText =>
      left
      constructor <;> simp [generate_response, hs]
    | raised =>
      left
      constructor <;> simp [generate_response, hs]
  · left
    constructor <;> simp [generate_response, hs]

/-- A responder timeout (noText) or thrown error (raised) yields no reply
and leaves the AI state unchanged. -/
theorem generate_response_no_output (ai : AIState) (out : ROut)
    (now nowSet : ℤ) (m a : Str)
    (h : out = ROut.noText ∨ out = ROut.raised) :
    generate_response ai out now nowSet m a = (none, ai) := by
  rcases h with h | h <;> subst h <;>
    by_cases hs : should_respond ai now m a = true <;>
    simp [generate_response, hs]

/-- Claim C1 (amended): lastResponseAt (AIService.last_used) changes only
when the responder successfully generates a reply; a responder timeout or
thrown error leaves it unchanged.  The outcome of the outbound send has
no influence on it. -/
theorem c1_last_used_only_on_generation (mon : MonState) (ai : AIState)
    (it : FetchItem) (ev : ItemEvents) :
    ((processItem mon ai it ev).2.1.last_used = ai.last_used ∨
      (∃ r, (processItem mon ai it ev).2.2.aiResponse = some r ∧
        (processItem mon ai it ev).2.1.last_used = ev.aiNowSet)) ∧
    ((ev.aiEv = ROut.noText ∨ ev.aiEv = ROut.raised) →
      (processItem mon ai it ev).2.1.last_used = ai.last_used) := by
  by_cases hsk : itemSkipped mon it = true
  · rw [processItem_skip mon ai it ev hsk]
    exact ⟨Or.inl rfl, fun _ => rfl⟩
  · have hsk' := Bool.eq_false_iff.mpr hsk
    obtain ⟨mid, _, _, _, hai, _, _, _, hresp⟩ := processItem_shape mon ai it ev hsk'
    constructor
    · rcases generate_response_cases ai ev.aiEv ev.aiNow ev.aiNowSet
        (itemText it) (itemAuthor it) with ⟨h1, h2⟩ | ⟨r, h1, h2⟩
      · left
        rw [hai, h2]
      · right
        exact ⟨r, by rw [hresp, h1], by rw [hai]; exact h2⟩
    · intro hout
      rw [hai,
        generate_response_no_output ai ev.aiEv ev.aiNow ev.aiNowSet _ _ hout]

/-- Witness for C1 (amended): a responder timeout leaves last_used untouched. -/
theorem c1_last_used_witness :
    (processItem monC aiC itC evNone).2.1.last_used = aiC.last_used :=
  (c1_last_used_only_on_generation monC aiC itC evNone).2 (Or.inl rfl)

/-- Counterexample to C1 as stated: for item itC the responder generates
a reply, both outbound send attempts fail, and last_used has nevertheless
moved from 0 to 100 — the cooldown stamp is mutated although the outbound
send failed. -/
theorem c1_send_failure_counterexample :
    (processItem monC aiC itC evFail).2.2.sendAttempts = 2 ∧
    (processItem monC aiC itC evFail).2.2.sendSucceeded = false ∧
    (processItem monC aiC itC evFail).2.1.last_used ≠ aiC.last_used := by
  refine ⟨by decide, by decide, by decide⟩

/-- Boolean normal form of should_respond. -/
theorem should_respond_eq (ai : AIState) (now : ℤ) (m a : Str) :
    should_respond ai now m a =
      (ai.hasKey && can_respond ai now &&
       !(ai.config.bot_users.any fun u => decide (lowerStr a = lowerStr u)) &&
       !(ai.config.banned_words.any fun w => containsSeq w (lowerStr m)) &&
       (ai.config.ai_triggers.any fun t => containsSeq t (lowerStr m))) := by
  unfold should_respond
  cases hK : ai.hasKey <;> cases hc : can_respond ai now <;>
    cases hb : (ai.config.bot_users.any fun u => decide (lowerStr a = lowerStr u)) <;>
    cases hw : (ai.config.banned_words.any fun w => containsSeq w (lowerStr m)) <;>
    simp [hK, hc, hb, hw]

/-- Claim C4: the gate permits exactly when the responder key is present,
the cooldown has elapsed, the author is not case-insensitively muted, the
case-folded text contains no banned term, and the case-folded text
contains a trigger term as a plain substring; in particular a muted
author is denied, and a banned term denies even in the presence of a
trigger term. -/
theorem c4_gate_characterisation (ai : AIState) (now : ℤ) (m a : Str) :
    (should_respond ai now m a = true ↔
      (ai.hasKey = true ∧
       ai.config.ai_cooldown < now - ai.last_used ∧
       (∀ u ∈ ai.config.bot_users, lowerStr a ≠ lowerStr u) ∧
       (∀ w ∈ ai.config.banned_words, ¬ ∃ l r, lowerStr m = l ++ w ++ r) ∧
       (∃ t ∈ ai.config.ai_triggers, ∃ l r, lowerStr m = l ++ t ++ r))) ∧
    ((∃ u ∈ ai.config.bot_users, lowerStr a = lowerStr u) →
      should_respond ai now m a = false) ∧
    ((∃ w ∈ ai.config.banned_words, ∃ l r, lowerStr m = l ++ w ++ r) →
      should_respond ai now m a = false) := by
  have hmain : should_respond ai now m a = true ↔
      (ai.hasKey = true ∧
       ai.config.ai_cooldown < now - ai.last_used ∧
       (∀ u ∈ ai.config.bot_users, lowerStr a ≠ lowerStr u) ∧
       (∀ w ∈ ai.config.banned_words, ¬ ∃ l r, lowerStr m = l ++ w ++ r) ∧
       (∃ t ∈ ai.config.ai_triggers, ∃ l r, lowerStr m = l ++ t ++ r)) := by
    rw [should_respond_eq]
    simp only [Bool.and_eq_true, Bool.not_eq_true', List.any_eq_false,
      List.any_eq_true, decide_eq_true_eq, containsSeq_iff, can_respond,
      gt_iff_lt]
    constructor
    · rintro ⟨⟨⟨⟨h1, h2⟩, h3⟩, h4⟩, h5⟩
      exact ⟨h1, h2, h3, h4, h5⟩
    · rintro ⟨h1, h2, h3, h4, h5⟩
      exact ⟨⟨⟨⟨h1, h2⟩, h3⟩, h4⟩, h5⟩
  refine ⟨hmain, ?_, ?_⟩
  · rintro ⟨u, hu, hEq⟩
    by_cases hb : should_respond ai now m a = true
    · exact absurd hEq ((hmain.mp hb).2.2.1 u hu)
    · exact Bool.eq_false_iff.mpr hb
  · rintro ⟨w, hw, hsub⟩
    by_cases hb : should_respond ai now m a = true
    · exact absurd hsub ((hmain.mp hb).2.2.2.1 w hw)
    · exact Bool.eq_false_iff.mpr hb

/-- Witness for C4: the muted author x is denied case-insensitively even
though the text carries the trigger term. -/
theorem c4_gate_witness : should_respond aiMut 100 ("yo".toList) ("X".toList) = false :=
  (c4_gate_characterisation aiMut 100 ("yo".toList) ("X".toList)).2.1
    ⟨"x".toList, by decide, by decide⟩

/-- Claim C6: the idle filler attempts a send only when the feature is
enabled, the pool is non-empty, the session is active, and both
now - lastActivityAt and now - lastIdleSendAt have reached the idle
interval (given a non-negative activity stamp, as time.monotonic
provides); lastIdleSendAt is rewritten exactly on send success. -/
theorem c6_idle_gating (cfg : MonConfig) (mon : MonState) (now : ℤ)
    (choice : ℕ) (netResult : Bool) (nowSend now2 : ℤ)
    (hact : 0 ≤ mon.last_activity_at) :
    ((maybe_send_idle_message cfg mon now choice netResult nowSend now2).2.1 = true →
      cfg.idle_chat_enabled = true ∧ cfg.idle_chat_messages ≠ [] ∧
      optStrTruthy mon.live_chat_id = true ∧ mon.is_running = true ∧
      cfg.idle_chat_interval ≤ now - mon.last_activity_at ∧
      cfg.idle_chat_interval ≤ now - mon.last_idle_message_at) ∧
    ((maybe_send_idle_message cfg mon now choice netResult nowSend now2).2.2 = false →
      (maybe_send_idle_message cfg mon now choice netResult nowSend now2).1.last_idle_message_at =
        mon.last_idle_message_at) ∧
    ((maybe_send_idle_message cfg mon now choice netResult nowSend now2).2.2 = true →
      (maybe_send_idle_message cfg mon now choice netResult nowSend now2).1.last_idle_message_at =
        now2) := by
  unfold maybe_send_idle_message
  split_ifs with h1 h2 h3 h4 h5
  · exact ⟨fun h => absurd h (by simp), fun _ => rfl, fun h => absurd h (by simp)⟩
  · exact ⟨fun h => absurd h (by simp), fun _ => rfl, fun h => absurd h (by simp)⟩
  · exact ⟨fun h => absurd h (by simp), fun _ => rfl, fun h => absurd h (by simp)⟩
  · exact ⟨fun h => absurd h (by simp), fun _ => rfl, fun h => absurd h (by simp)⟩
  · exact ⟨fun h => absurd h (by simp), fun _ => rfl, fun h => absurd h (by simp)⟩
  · have hcond : cfg.idle_chat_enabled = true ∧ cfg.idle_chat_messages ≠ [] ∧
        optStrTruthy mon.live_chat_id = true ∧ mon.is_running = true ∧
        cfg.idle_chat_interval ≤ now - mon.last_activity_at ∧
        cfg.idle_chat_interval ≤ now - mon.last_idle_message_at := by
      push_neg at h3
      have hen : cfg.idle_chat_enabled = true := by
        revert h1; cases cfg.idle_chat_enabled <;> simp
      have hmsg : cfg.idle_chat_messages ≠ [] := by
        intro hn
        exact h2 (by simp [hn])
      have hlive : optStrTruthy mon.live_chat_id = true := by
        have := h3.1
        revert this; cases optStrTruthy mon.live_chat_id <;> simp
      have hrun : mon.is_running = true := by
        have := h3.2
        revert this; cases mon.is_running <;> simp
      have hactiv : cfg.idle_chat_interval ≤ now - mon.last_activity_at :=
        not_lt.mp h4
      have hidle : cfg.idle_chat_interval ≤ now - mon.last_idle_message_at := by
        rcases Decidable.not_and_iff_or_not.mp h5 with h | h
        · have h0 : mon.last_idle_message_at = 0 := Decidable.not_not.mp h
          rw [h0]
          omega
        · exact not_lt.mp h
      exact ⟨hen, hmsg, hlive, hrun, hactiv, hidle⟩
    by_cases hsend : (send_chat_message mon
        (cfg.idle_chat_messages.getD (choice % cfg.idle_chat_messages.length) [])
        netResult nowSend).1 = true
    · rw [if_pos hsend]
      exact ⟨fun _ => hcond, fun h => by simp at h, fun _ => rfl⟩
    · rw [if_neg hsend]
      refine ⟨fun _ => hcond, fun _ => ?_, fun h => by simp at h⟩
      exact (send_chat_message_frame mon _ netResult nowSend).2.1

/-- Witness for C6: after 20 seconds of silence with a 10-second interval
the filler fires and stamps last_idle_message_at with the success time. -/
theorem c6_idle_witness :
    (maybe_send_idle_message cfgIdle monC 20 0 true 20 21).1.last_idle_message_at = 21 :=
  (c6_idle_gating cfgIdle monC 20 0 true 20 21 (by decide)).2.2 (by decide)

/-- Claim C10: any reply returned by generate_response fits within
max_message_length (when that limit is at least 3), and an over-long raw
reply is truncated to max_message_length - 3 characters plus dots. -/
theorem c10_length_bound (ai : AIState) (out : ROut) (now nowSet : ℤ)
    (m a : Str) (r : Str) (h3 : 3 ≤ ai.config.max_message_length)
    (hr : (generate_response ai out now nowSet m a).1 = some r) :
    (r.length : ℤ) ≤ ai.config.max_message_length ∧
    ∀ raw, out = ROut.ok raw → ai.config.max_message_length < (raw.length : ℤ) →
      r = raw.take (ai.config.max_message_length - 3).toNat ++ ("...".toList) := by
  by_cases hs : should_respond ai now m a = true
  case neg => simp [generate_response, hs] at hr
  case pos =>
  cases out with
  | noText => simp [generate_response, hs] at hr
  | raised => simp [generate_response, hs] at hr
  | ok raw =>
    by_cases hre : raw.isEmpty = true
    · simp [generate_response, hs, hre] at hr
    · have hr' : truncateResponse ai.config.max_message_length raw = r := by
        have h0 := hr
        simp [generate_response, hs, hre] at h0
        exact h0
      unfold truncateResponse at hr'
      by_cases hlong : (raw.length : ℤ) > ai.config.max_message_length
      · rw [if_pos hlong] at hr'
        have hps : pySliceTo (ai.config.max_message_length - 3) raw =
            raw.take (ai.config.max_message_length - 3).toNat := by
          unfold pySliceTo
          rw [if_pos (by omega)]
        rw [hps] at hr'
        have hcast : ((ai.config.max_message_length - 3).toNat : ℤ) =
            ai.config.max_message_length - 3 := Int.toNat_of_nonneg (by omega)
        constructor
        · rw [← hr', List.length_append, List.length_take]
          have htake : min (ai.config.max_message_length - 3).toNat raw.length =
              (ai.config.max_message_length - 3).toNat := by
            apply min_eq_left
            omega
          rw [htake]
          have hdots : ("...".toList).length = 3 := rfl
          rw [hdots]
          push_cast
          omega
        · intro raw' heq _
          cases heq
          exact hr'.symm
      · rw [if_neg hlong] at hr'
        constructor
        · rw [← hr']
          omega
        · intro raw' heq hlong'
          cases heq
          exact absurd hlong' (by omega)

/-- Witness for C10: an 8-character raw reply against limit 5 comes back
as exactly 5 characters ab followed by three dots. -/
theorem c10_length_witness :
    (generate_response aiShort (ROut.ok ("abcdefgh".toList)) 100 100
      ("yo".toList) ("X".toList)).1 = some ("ab...".toList) ∧
    (("ab...".toList).length : ℤ) ≤ aiShort.config.max_message_length := by
  refine ⟨by decide, ?_⟩
  exact (c10_length_bound aiShort (ROut.ok ("abcdefgh".toList)) 100 100
    ("yo".toList) ("X".toList) ("ab...".toList) (by decide) (by decide)).1

end RukiyaSpec
